import Mathlib

/-!
Verification of the task-dependency scheduler of the Jarvis coding agent
(`src/coding_agent/src/overwatch_agent.py`, class `OverwatchAgent`).

The scheduler core is embedded shallowly:

* a `Task` is the projection of a task dict to the fields the scheduler
  reads (`task_id`, `dependencies`; the remaining fields are descriptive
  metadata never consulted by scheduling logic);
* the session-state dictionary is an association list with Python
  `dict.__setitem__` / `dict.update` semantics (`dict_set`, `dict_update`);
* `find_executable_tasks` is translated from
  `OverwatchAgent.find_executable_tasks`;
* `execute_plan_loop` / `execute_plan` are translated from
  `OverwatchAgent.execute_plan`; the external task executor is a function
  `Task → Bool × String` (the `(success, final_output)` pair of
  `execute_single_task`) and the pause gate is a function `Nat → String`
  giving, per round, the string returned by
  `_wait_for_user_input_with_timeout`;
* the loop runs on explicit fuel for structural recursion; since each
  continuing round appends exactly one fresh id to `completed_tasks`,
  fuel `tasks.length` is never exhausted (`execute_plan_loop_no_fuelOut`);
* `execute_single_task` is embedded over a stream of duck-typed events:
  an `Event` has optional `type` and `content` attributes (`none` models
  an absent attribute), the stream is a list of yielded events followed by
  an optional exception raised by the underlying async iterator.

Results carry the return site plus the data printed there (`RunResult`);
`result_bool` maps a result to the boolean returned by `execute_plan`
(`Option.none` for the uncaught `IndexError` at `executable_tasks[0]`).
-/

namespace Jarvis

/-- Projection of a task dict to the scheduler-relevant fields.
`category`, `priority`, `estimated_hours`, `description` are read only for
display and are omitted. -/
structure Task where
  task_id : String
  dependencies : List String
deriving DecidableEq, Repr

/-- Values stored in the session-state dictionary by the scheduler. -/
inductive SVal where
  | str (s : String)
  | strList (l : List String)
  | task (t : Task)
  | none
deriving DecidableEq, Repr

/-- The session-state dictionary (`self.session_state`), as an association
list in insertion order. -/
abbrev Dict : Type := List (String × SVal)

/-- Python `d[k] = v`: replace the value of an existing key in place,
otherwise append the new binding. -/
def dict_set (d : Dict) (k : String) (v : SVal) : Dict :=
  if (List.any d (fun p => p.1 = k)) then
    List.map (fun p => if p.1 = k then (k, v) else p) d
  else
    List.append d [(k, v)]

/-- Python `d.update(delta)`: assign every binding of `delta`, in order. -/
def dict_update (d : Dict) (delta : List (String × SVal)) : Dict :=
  List.foldl (fun acc kv => dict_set acc kv.1 kv.2) d delta

/-- Python `d.get(k)` / `d[k]`: value of the first binding of `k`. -/
def dict_lookup (d : Dict) (k : String) : Option SVal :=
  Option.map Prod.snd (List.find? (fun p => p.1 = k) d)

/-- `OverwatchAgent.update_session_state`, restricted to its effect on the
local snapshot `self.session_state` (line `self.session_state.update(state_delta)`);
the mirrored service-session copy receives the same `update` call. -/
def update_session_state (session_state : Dict) (state_delta : List (String × SVal)) : Dict :=
  dict_update session_state state_delta

/-- `OverwatchAgent.find_executable_tasks`: keep, in declaration order,
every task whose id is not yet completed and whose dependencies are all
completed. -/
def find_executable_tasks (completed_tasks : List String) (tasks : List Task) : List Task :=
  List.filter
    (fun task => decide (task.task_id ∉ completed_tasks ∧
      ∀ dep ∈ task.dependencies, dep ∈ completed_tasks))
    tasks

/-- Outcome of one `execute_plan` call: the return site together with the
data reported there. -/
inductive RunResult where
  /-- normal termination: `return True` after the loop. -/
  | completed (completed_tasks : List String) (session : Dict)
  /-- deadlock: `return False` with, per uncompleted task, its missing
  dependency ids. -/
  | deadlock (completed_tasks : List String)
      (report : List (String × List String)) (session : Dict)
  /-- executor failure: `return False` naming the failing task. -/
  | taskFailed (completed_tasks : List String) (task_id : String) (session : Dict)
  /-- user cancellation at the pause gate: `return False`. -/
  | cancelled (completed_tasks : List String) (session : Dict)
  /-- `if not self.plan: return False`. -/
  | noPlan (completed_tasks : List String) (session : Dict)
  /-- `if not tasks: return False`. -/
  | emptyPlan (completed_tasks : List String) (session : Dict)
  /-- uncaught `IndexError` from `executable_tasks[0]` on an empty list. -/
  | indexError (completed_tasks : List String) (session : Dict)
  /-- fuel artifact of the embedding; unreachable from `execute_plan`. -/
  | fuelOut
deriving DecidableEq, Repr

/-- The boolean `execute_plan` returns; `none` when it raises instead of
returning. -/
def result_bool : RunResult → Option Bool
  | RunResult.completed _ _ => some true
  | RunResult.deadlock _ _ _ => some false
  | RunResult.taskFailed _ _ _ => some false
  | RunResult.cancelled _ _ => some false
  | RunResult.noPlan _ _ => some false
  | RunResult.emptyPlan _ _ => some false
  | RunResult.indexError _ _ => Option.none
  | RunResult.fuelOut => Option.none

/-- `self.completed_tasks` when `execute_plan` returns or raises. -/
def result_completed : RunResult → List String
  | RunResult.completed c _ => c
  | RunResult.deadlock c _ _ => c
  | RunResult.taskFailed c _ _ => c
  | RunResult.cancelled c _ => c
  | RunResult.noPlan c _ => c
  | RunResult.emptyPlan c _ => c
  | RunResult.indexError c _ => c
  | RunResult.fuelOut => []

/-- `self.session_state` when `execute_plan` returns or raises. -/
def result_session : RunResult → Dict
  | RunResult.completed _ s => s
  | RunResult.deadlock _ _ s => s
  | RunResult.taskFailed _ _ s => s
  | RunResult.cancelled _ s => s
  | RunResult.noPlan _ s => s
  | RunResult.emptyPlan _ s => s
  | RunResult.indexError _ s => s
  | RunResult.fuelOut => []

/-- `remaining_tasks = [task for task in tasks if task.get('task_id') not in
self.completed_tasks]` (line 304). -/
def remaining_tasks (completed_tasks : List String) (tasks : List Task) : List Task :=
  List.filter (fun task => decide (task.task_id ∉ completed_tasks)) tasks

/-- `missing_deps = [dep for dep in dependencies if dep not in
self.completed_tasks]` (line 311). -/
def missing_deps (completed_tasks : List String) (task : Task) : List String :=
  List.filter (fun dep => decide (dep ∉ completed_tasks)) task.dependencies

/-- The deadlock diagnostic printed on lines 308-312: each remaining task
with its missing dependency ids. -/
def deadlock_report (completed_tasks : List String) (tasks : List Task) :
    List (String × List String) :=
  List.map (fun task => (task.task_id, missing_deps completed_tasks task))
    (remaining_tasks completed_tasks tasks)

/-- The session update of lines 328-331, made before the task executes. -/
def session_executing (session : Dict) (current_task : Task) : Dict :=
  update_session_state session
    [("current_task", SVal.task current_task), ("status", SVal.str "executing")]

/-- The session update of lines 341-344, made after the task succeeds. -/
def session_after_success (session : Dict) (current_task : Task)
    (completed_tasks : List String) : Dict :=
  update_session_state (session_executing session current_task)
    [("completed_tasks", SVal.strList completed_tasks), ("current_task", SVal.none)]

/-- The `while len(self.completed_tasks) < total_tasks` loop of
`OverwatchAgent.execute_plan`.  `executor` is the external
`execute_single_task` outcome per task; `gate` gives the string returned by
`_wait_for_user_input_with_timeout` in each round. -/
def execute_plan_loop (tasks : List Task) (executor : Task → Bool × String)
    (gate : Nat → String) :
    Nat → Nat → List String → Dict → RunResult
  | fuel, execution_round, completed_tasks, session =>
    if completed_tasks.length < tasks.length then
      match fuel with
      | 0 => RunResult.fuelOut
      | Nat.succ fuel =>
        match find_executable_tasks completed_tasks tasks with
        | [] =>
          if (remaining_tasks completed_tasks tasks).isEmpty then
            RunResult.indexError completed_tasks session
          else
            RunResult.deadlock completed_tasks
              (deadlock_report completed_tasks tasks) session
        | current_task :: _ =>
          let outcome := executor current_task
          if outcome.1 then
            let completed' := List.append completed_tasks [current_task.task_id]
            if gate execution_round = "cancel" then
              RunResult.cancelled completed'
                (session_after_success session current_task completed')
            else
              execute_plan_loop tasks executor gate fuel (execution_round + 1)
                completed' (session_after_success session current_task completed')
          else
            RunResult.taskFailed completed_tasks current_task.task_id
              (session_executing session current_task)
    else
      RunResult.completed completed_tasks
        (update_session_state session [("status", SVal.str "completed")])

/-- `OverwatchAgent.execute_plan`: guard clauses for a missing plan and an
empty task list (the prior `self.completed_tasks` value `completed0` is
left untouched there), then reset `self.completed_tasks = []` and run the
round loop. -/
def execute_plan (plan : Option (List Task)) (executor : Task → Bool × String)
    (gate : Nat → String) (completed0 : List String) (session : Dict) : RunResult :=
  match plan with
  | Option.none => RunResult.noPlan completed0 session
  | some tasks =>
    if tasks.isEmpty then
      RunResult.emptyPlan completed0 session
    else
      execute_plan_loop tasks executor gate tasks.length 1 [] session

/-- A duck-typed event yielded by the executor runner.  A field holds
`Option.none` when the Python object lacks that attribute; a present
attribute is modelled by its `str(...)` rendering. -/
structure Event where
  type : Option String
  content : Option String
deriving DecidableEq, Repr

/-- Contribution of one event to `final_output` in
`OverwatchAgent.execute_single_task`: `str(event.content) + "\n"` when the
event has `type == 'response'` (raising `AttributeError` if `content` is
absent there), else the same when a `content` attribute exists, else
nothing.  `Except.error` models the raised exception. -/
def event_output (event : Event) : Except String String :=
  match event.type with
  | some t =>
    if t = "response" then
      match event.content with
      | some c => Except.ok (String.append c "\n")
      | Option.none => Except.error "AttributeError: content"
    else
      match event.content with
      | some c => Except.ok (String.append c "\n")
      | Option.none => Except.ok ""
  | Option.none =>
    match event.content with
    | some c => Except.ok (String.append c "\n")
    | Option.none => Except.ok ""

/-- The `async for` accumulation of `final_output` over the yielded
events; stops at the first raised exception. -/
def run_events : List Event → String → Except String String
  | [], acc => Except.ok acc
  | event :: rest, acc =>
    match event_output event with
    | Except.ok s => run_events rest (String.append acc s)
    | Except.error m => Except.error m

/-- `OverwatchAgent.execute_single_task`: consume the event stream
(`events` are the events yielded before the iterator either finishes, when
`exn = none`, or raises `exn`'s message); the enclosing `try` turns any
raised exception into `(False, "Error: " + str(e))`, and a clean run
returns `(True, final_output.strip())`. -/
def execute_single_task (events : List Event) (exn : Option String) : Bool × String :=
  match run_events events "" with
  | Except.error m => (false, String.append "Error: " m)
  | Except.ok final_output =>
    match exn with
    | some m => (false, String.append "Error: " m)
    | Option.none => (true, final_output.trim)

/-! ### Concrete fixtures used by witnesses and counterexamples -/

/-- The happy-path plan of the spec:
`[setup(deps=[]), build(deps=[setup]), test(deps=[build])]`. -/
def linear_plan : List Task :=
  [⟨"setup", []⟩, ⟨"build", ["setup"]⟩, ⟨"test", ["build"]⟩]

/-- The mutual-dependency plan `A→[B]`, `B→[A]`. -/
def plan_AB : List Task :=
  [⟨"A", ["B"]⟩, ⟨"B", ["A"]⟩]

/-- Two tasks sharing the id `dup`. -/
def dup_plan : List Task :=
  [⟨"dup", []⟩, ⟨"dup", []⟩]

/-- A plan with a duplicated id `A` plus a third task whose dependency
names no task of the plan. -/
def dup_plan_missing : List Task :=
  [⟨"A", []⟩, ⟨"A", []⟩, ⟨"C", ["missing"]⟩]

/-- An executor reporting success on every task. -/
def exec_ok : Task → Bool × String := fun _ => (true, "done")

/-- An executor failing exactly on the task with id `build`. -/
def exec_fail_build : Task → Bool × String :=
  fun task => if task.task_id = "build" then (false, "boom") else (true, "done")

/-- A pause gate always answering `continue`. -/
def gate_continue : Nat → String := fun _ => "continue"

/-- A pause gate always timing out. -/
def gate_timeout : Nat → String := fun _ => "timeout"

/-- A pause gate cancelling at round 1 (right after the first task
completes) and continuing otherwise. -/
def gate_cancel_after_1 : Nat → String :=
  fun execution_round => if execution_round = 1 then "cancel" else "continue"

/-- A second always-succeeding executor, pointwise equal to `exec_ok` but a
distinct definition (used to state determinism across runs). -/
def exec_ok_second : Task → Bool × String := fun _ => (true, "done")

/-- A second always-continue gate, pointwise equal to `gate_continue`. -/
def gate_continue_second : Nat → String := fun _ => "continue"

/-- `completed` is a topological order with respect to `tasks`: each entry
is the id of some task of the plan all of whose dependencies appear
strictly earlier in `completed`. -/
def topo_sound (tasks : List Task) (completed : List String) : Prop :=
  ∀ i (h : i < completed.length),
    ∃ t, t ∈ tasks ∧ t.task_id = completed.get ⟨i, h⟩ ∧
      ∀ dep ∈ t.dependencies, dep ∈ List.take i completed

/-! ### Unfolding lemmas for the execution loop, one per return site -/

theorem loop_exit {tasks : List Task} {completed : List String}
    (executor : Task → Bool × String) (gate : Nat → String)
    (fuel execution_round : Nat) (session : Dict)
    (hlen : ¬ completed.length < tasks.length) :
    execute_plan_loop tasks executor gate fuel execution_round completed session =
      RunResult.completed completed
        (update_session_state session [("status", SVal.str "completed")]) := by
  rw [execute_plan_loop.eq_def]
  simp [hlen]

theorem loop_fuelOut {tasks : List Task} {completed : List String}
    (executor : Task → Bool × String) (gate : Nat → String)
    (execution_round : Nat) (session : Dict)
    (hlen : completed.length < tasks.length) :
    execute_plan_loop tasks executor gate 0 execution_round completed session =
      RunResult.fuelOut := by
  rw [execute_plan_loop.eq_def]
  simp [hlen]

theorem loop_deadlock {tasks : List Task} {completed : List String}
    (executor : Task → Bool × String) (gate : Nat → String)
    (fuel execution_round : Nat) (session : Dict)
    (hlen : completed.length < tasks.length)
    (hfe : find_executable_tasks completed tasks = [])
    (hrem : (remaining_tasks completed tasks).isEmpty = false) :
    execute_plan_loop tasks executor gate (fuel + 1) execution_round completed session =
      RunResult.deadlock completed (deadlock_report completed tasks) session := by
  rw [execute_plan_loop.eq_def]
  simp [hlen, hfe, hrem]

theorem loop_indexError {tasks : List Task} {completed : List String}
    (executor : Task → Bool × String) (gate : Nat → String)
    (fuel execution_round : Nat) (session : Dict)
    (hlen : completed.length < tasks.length)
    (hfe : find_executable_tasks completed tasks = [])
    (hrem : (remaining_tasks completed tasks).isEmpty = true) :
    execute_plan_loop tasks executor gate (fuel + 1) execution_round completed session =
      RunResult.indexError completed session := by
  rw [execute_plan_loop.eq_def]
  simp [hlen, hfe, hrem]

theorem loop_cancelled {tasks : List Task} {completed : List String}
    {executor : Task → Bool × String} {gate : Nat → String}
    {execution_round : Nat} {current_task : Task} {rest : List Task}
    (fuel : Nat) (session : Dict)
    (hlen : completed.length < tasks.length)
    (hfe : find_executable_tasks completed tasks = current_task :: rest)
    (hex : (executor current_task).1 = true)
    (hg : gate execution_round = "cancel") :
    execute_plan_loop tasks executor gate (fuel + 1) execution_round completed session =
      RunResult.cancelled (List.append completed [current_task.task_id])
        (session_after_success session current_task
          (List.append completed [current_task.task_id])) := by
  rw [execute_plan_loop.eq_def]
  simp [hlen, hfe, hex, hg]

theorem loop_next_round {tasks : List Task} {completed : List String}
    {executor : Task → Bool × String} {gate : Nat → String}
    {execution_round : Nat} {current_task : Task} {rest : List Task}
    (fuel : Nat) (session : Dict)
    (hlen : completed.length < tasks.length)
    (hfe : find_executable_tasks completed tasks = current_task :: rest)
    (hex : (executor current_task).1 = true)
    (hg : ¬ gate execution_round = "cancel") :
    execute_plan_loop tasks executor gate (fuel + 1) execution_round completed session =
      execute_plan_loop tasks executor gate fuel (execution_round + 1)
        (List.append completed [current_task.task_id])
        (session_after_success session current_task
          (List.append completed [current_task.task_id])) := by
  rw [execute_plan_loop.eq_def]
  simp [hlen, hfe, hex, hg]

theorem loop_taskFailed {tasks : List Task} {completed : List String}
    {executor : Task → Bool × String} {gate : Nat → String}
    {execution_round : Nat} {current_task : Task} {rest : List Task}
    (fuel : Nat) (session : Dict)
    (hlen : completed.length < tasks.length)
    (hfe : find_executable_tasks completed tasks = current_task :: rest)
    (hex : (executor current_task).1 = false) :
    execute_plan_loop tasks executor gate (fuel + 1) execution_round completed session =
      RunResult.taskFailed completed current_task.task_id
        (session_executing session current_task) := by
  rw [execute_plan_loop.eq_def]
  simp [hlen, hfe, hex]

/-! ### Basic facts about the loop and its selection policy -/

/-- The head of `find_executable_tasks` is a task of the plan, not yet
completed, with all dependencies completed. -/
theorem find_executable_head {completed : List String} {tasks : List Task}
    {current_task : Task} {rest : List Task}
    (hfe : find_executable_tasks completed tasks = current_task :: rest) :
    current_task ∈ tasks ∧ current_task.task_id ∉ completed ∧
      ∀ dep ∈ current_task.dependencies, dep ∈ completed := by
  have ht : current_task ∈ find_executable_tasks completed tasks := by
    rw [hfe]
    exact List.mem_cons_self _ _
  have hmem := List.mem_filter.mp ht
  exact ⟨hmem.1, of_decide_eq_true hmem.2⟩

/-- With fuel at least `tasks.length - completed.length` the fuel artifact
is unreachable: each continuing round appends one id. -/
theorem execute_plan_loop_no_fuelOut (tasks : List Task)
    (executor : Task → Bool × String) (gate : Nat → String) :
    ∀ (fuel execution_round : Nat) (completed : List String) (session : Dict),
      tasks.length ≤ fuel + completed.length →
      execute_plan_loop tasks executor gate fuel execution_round completed session ≠
        RunResult.fuelOut := by
  intro fuel
  induction fuel with
  | zero =>
    intro execution_round completed session hfuel
    have hlen : ¬ completed.length < tasks.length := by omega
    rw [loop_exit executor gate 0 execution_round session hlen]
    intro hcon
    exact RunResult.noConfusion hcon
  | succ fuel ih =>
    intro execution_round completed session hfuel
    by_cases hlen : completed.length < tasks.length
    · cases hfe : find_executable_tasks completed tasks with
      | nil =>
        cases hrem : (remaining_tasks completed tasks).isEmpty with
        | true =>
          rw [loop_indexError executor gate fuel execution_round session hlen hfe hrem]
          intro hcon
          exact RunResult.noConfusion hcon
        | false =>
          rw [loop_deadlock executor gate fuel execution_round session hlen hfe hrem]
          intro hcon
          exact RunResult.noConfusion hcon
      | cons current_task rest =>
        cases hex : (executor current_task).1 with
        | true =>
          by_cases hg : gate execution_round = "cancel"
          · rw [loop_cancelled fuel session hlen hfe hex hg]
            intro hcon
            exact RunResult.noConfusion hcon
          · rw [loop_next_round fuel session hlen hfe hex hg]
            refine ih (execution_round + 1) _ _ ?_
            simp only [List.append_eq, List.length_append, List.length_cons,
              List.length_nil]
            omega
        | false =>
          rw [loop_taskFailed fuel session hlen hfe hex]
          intro hcon
          exact RunResult.noConfusion hcon
    · rw [loop_exit executor gate (fuel + 1) execution_round session hlen]
      intro hcon
      exact RunResult.noConfusion hcon

/-! ### Topological soundness of the completion order -/

theorem topo_sound_nil (tasks : List Task) : topo_sound tasks [] := by
  intro i hi
  exact absurd hi (by simp)

/-- Appending the id of a plan task whose dependencies are already all
completed preserves topological soundness. -/
theorem topo_sound_append {tasks : List Task} {completed : List String}
    {current_task : Task}
    (h : topo_sound tasks completed) (hmem : current_task ∈ tasks)
    (hdep : ∀ dep ∈ current_task.dependencies, dep ∈ completed) :
    topo_sound tasks (completed ++ [current_task.task_id]) := by
  intro i hi
  by_cases hlt : i < completed.length
  · obtain ⟨t, ht1, ht2, ht3⟩ := h i hlt
    refine ⟨t, ht1, ?_, ?_⟩
    · rw [List.get_eq_getElem, List.getElem_append_left hlt]
      rw [List.get_eq_getElem] at ht2
      exact ht2
    · intro dep hd
      rw [List.take_append_of_le_length (le_of_lt hlt)]
      exact ht3 dep hd
  · have hieq : i = completed.length := by
      have : i < completed.length + 1 := by
        simpa using hi
      omega
    refine ⟨current_task, hmem, ?_, ?_⟩
    · rw [List.get_eq_getElem, List.getElem_concat_length _ _ _ hieq]
    · intro dep hd
      rw [hieq, List.take_append_of_le_length (le_refl _), List.take_length]
      exact hdep dep hd

/-- Loop invariant: the completion list stays a topological order through
every round, whatever the executor and gate do. -/
theorem execute_plan_loop_topo (tasks : List Task)
    (executor : Task → Bool × String) (gate : Nat → String) :
    ∀ (fuel execution_round : Nat) (completed : List String) (session : Dict),
      topo_sound tasks completed →
      topo_sound tasks (result_completed
        (execute_plan_loop tasks executor gate fuel execution_round completed session)) := by
  intro fuel
  induction fuel with
  | zero =>
    intro execution_round completed session h
    by_cases hlen : completed.length < tasks.length
    · rw [loop_fuelOut executor gate execution_round session hlen]
      exact topo_sound_nil tasks
    · rw [loop_exit executor gate 0 execution_round session hlen]
      exact h
  | succ fuel ih =>
    intro execution_round completed session h
    by_cases hlen : completed.length < tasks.length
    · cases hfe : find_executable_tasks completed tasks with
      | nil =>
        cases hrem : (remaining_tasks completed tasks).isEmpty with
        | true =>
          rw [loop_indexError executor gate fuel execution_round session hlen hfe hrem]
          exact h
        | false =>
          rw [loop_deadlock executor gate fuel execution_round session hlen hfe hrem]
          exact h
      | cons current_task rest =>
        obtain ⟨hmem, _, hdep⟩ := find_executable_head hfe
        cases hex : (executor current_task).1 with
        | true =>
          by_cases hg : gate execution_round = "cancel"
          · rw [loop_cancelled fuel session hlen hfe hex hg]
            exact topo_sound_append h hmem hdep
          · rw [loop_next_round fuel session hlen hfe hex hg]
            exact ih _ _ _ (topo_sound_append h hmem hdep)
        | false =>
          rw [loop_taskFailed fuel session hlen hfe hex]
          exact h
    · rw [loop_exit executor gate (fuel + 1) execution_round session hlen]
      exact h

/-- The loop consults the gate only through the comparison with
`"cancel"`: two gates that agree on cancelling drive identical runs. -/
theorem execute_plan_loop_gate_congr (tasks : List Task)
    (executor : Task → Bool × String) (g1 g2 : Nat → String)
    (hg : ∀ n, g1 n = "cancel" ↔ g2 n = "cancel") :
    ∀ (fuel execution_round : Nat) (completed : List String) (session : Dict),
      execute_plan_loop tasks executor g1 fuel execution_round completed session =
        execute_plan_loop tasks executor g2 fuel execution_round completed session := by
  intro fuel
  induction fuel with
  | zero =>
    intro execution_round completed session
    by_cases hlen : completed.length < tasks.length
    · rw [loop_fuelOut executor g1 execution_round session hlen,
        loop_fuelOut executor g2 execution_round session hlen]
    · rw [loop_exit executor g1 0 execution_round session hlen,
        loop_exit executor g2 0 execution_round session hlen]
  | succ fuel ih =>
    intro execution_round completed session
    by_cases hlen : completed.length < tasks.length
    · cases hfe : find_executable_tasks completed tasks with
      | nil =>
        cases hrem : (remaining_tasks completed tasks).isEmpty with
        | true =>
          rw [loop_indexError executor g1 fuel execution_round session hlen hfe hrem,
            loop_indexError executor g2 fuel execution_round session hlen hfe hrem]
        | false =>
          rw [loop_deadlock executor g1 fuel execution_round session hlen hfe hrem,
            loop_deadlock executor g2 fuel execution_round session hlen hfe hrem]
      | cons current_task rest =>
        cases hex : (executor current_task).1 with
        | true =>
          by_cases hg1 : g1 execution_round = "cancel"
          · have hg2 : g2 execution_round = "cancel" := (hg execution_round).mp hg1
            rw [loop_cancelled fuel session hlen hfe hex hg1,
              loop_cancelled fuel session hlen hfe hex hg2]
          · have hg2 : ¬ g2 execution_round = "cancel" := fun hc =>
              hg1 ((hg execution_round).mpr hc)
            rw [loop_next_round fuel session hlen hfe hex hg1,
              loop_next_round fuel session hlen hfe hex hg2]
            exact ih _ _ _
        | false =>
          rw [loop_taskFailed fuel session hlen hfe hex,
            loop_taskFailed fuel session hlen hfe hex]
    · rw [loop_exit executor g1 (fuel + 1) execution_round session hlen,
        loop_exit executor g2 (fuel + 1) execution_round session hlen]

/-! ### Python dictionary semantics -/

theorem dict_lookup_set_self (d : Dict) (k : String) (v : SVal) :
    dict_lookup (dict_set d k v) k = some v := by
  induction d with
  | nil => simp [dict_set, dict_lookup]
  | cons p rest ih =>
    by_cases hp : p.1 = k
    · simp [dict_set, dict_lookup, hp]
    · have hstep : dict_lookup (dict_set (p :: rest) k v) k
          = dict_lookup (dict_set rest k v) k := by
        cases hany : List.any rest (fun q => q.1 = k) with
        | true => simp [dict_set, dict_lookup, hp, hany]
        | false => simp [dict_set, dict_lookup, hp, hany]
      rw [hstep]
      exact ih

theorem dict_lookup_cons_of_eq {p : String × SVal} {k : String} (d : Dict)
    (h : p.1 = k) : dict_lookup (p :: d) k = some p.2 := by
  unfold dict_lookup
  rw [List.find?_cons_of_pos _ (by simpa using h)]
  rfl

theorem dict_lookup_cons_of_ne {p : String × SVal} {k : String} (d : Dict)
    (h : ¬ p.1 = k) : dict_lookup (p :: d) k = dict_lookup d k := by
  unfold dict_lookup
  rw [List.find?_cons_of_neg _ (by simpa using h)]

theorem dict_lookup_map_replace {k k' : String} {v : SVal} (hk : k' ≠ k) :
    ∀ d : Dict,
      dict_lookup (List.map (fun p => if p.1 = k then (k, v) else p) d) k'
        = dict_lookup d k' := by
  intro d
  induction d with
  | nil => rfl
  | cons p rest ih =>
    rw [List.map_cons]
    by_cases hp : p.1 = k
    · rw [if_pos hp,
        dict_lookup_cons_of_ne _ (show ¬ ((k, v) : String × SVal).1 = k' from
          fun hc => hk hc.symm),
        dict_lookup_cons_of_ne _ (show ¬ p.1 = k' from by
          rw [hp]
          exact fun hc => hk hc.symm),
        ih]
    · rw [if_neg hp]
      by_cases hp' : p.1 = k'
      · rw [dict_lookup_cons_of_eq _ hp', dict_lookup_cons_of_eq _ hp']
      · rw [dict_lookup_cons_of_ne _ hp', dict_lookup_cons_of_ne _ hp', ih]

theorem dict_lookup_append_single {k k' : String} {v : SVal} (hk : k' ≠ k)
    (d : Dict) :
    dict_lookup (List.append d [(k, v)]) k' = dict_lookup d k' := by
  unfold dict_lookup
  rw [List.append_eq, List.find?_append]
  have h2 : List.find? (fun p => decide (p.1 = k')) [((k, v) : String × SVal)]
      = Option.none := by
    rw [List.find?_cons_of_neg _ (by simpa using fun hc => hk (Eq.symm hc))]
    rfl
  rw [h2]
  cases List.find? (fun p => decide (p.1 = k')) d <;> rfl

theorem dict_lookup_set_other (d : Dict) {k k' : String} (v : SVal) (hk : k' ≠ k) :
    dict_lookup (dict_set d k v) k' = dict_lookup d k' := by
  unfold dict_set
  by_cases hany : (List.any d fun p => p.1 = k) = true
  · rw [if_pos hany]
    exact dict_lookup_map_replace hk d
  · rw [if_neg hany]
    exact dict_lookup_append_single hk d

theorem dict_lookup_eq_none_of_not_mem_keys {d : Dict} {k : String}
    (h : k ∉ List.map Prod.fst d) :
    dict_lookup d k = Option.none := by
  unfold dict_lookup
  rw [List.find?_eq_none.mpr]
  · rfl
  · intro p hp hcon
    exact h (List.mem_map.mpr ⟨p, hp, of_decide_eq_true hcon⟩)

/-- Lookup after a Python `dict.update`: keys of the delta take the
delta's value, all other keys keep the prior value. -/
theorem dict_update_lookup (delta : List (String × SVal)) :
    ∀ state : Dict, List.Nodup (List.map Prod.fst delta) → ∀ k : String,
      (∀ v, dict_lookup delta k = some v →
          dict_lookup (dict_update state delta) k = some v)
      ∧ (dict_lookup delta k = Option.none →
          dict_lookup (dict_update state delta) k = dict_lookup state k) := by
  induction delta with
  | nil =>
    intro state _ k
    exact ⟨fun v hv => absurd hv (by simp [dict_lookup]), fun _ => rfl⟩
  | cons kv rest ih =>
    intro state hnd k
    rw [List.map_cons] at hnd
    obtain ⟨hk0, hrest⟩ := List.nodup_cons.mp hnd
    have hupd : dict_update state (kv :: rest)
        = dict_update (dict_set state kv.1 kv.2) rest := rfl
    by_cases hk : kv.1 = k
    · subst hk
      refine ⟨?_, ?_⟩
      · intro v hv
        rw [dict_lookup_cons_of_eq _ rfl] at hv
        have hv' : kv.2 = v := Option.some.inj hv
        rw [hupd, (ih (dict_set state kv.1 kv.2) hrest kv.1).2
            (dict_lookup_eq_none_of_not_mem_keys hk0), ← hv']
        exact dict_lookup_set_self state kv.1 kv.2
      · intro hv
        rw [dict_lookup_cons_of_eq _ rfl] at hv
        exact absurd hv (by simp)
    · refine ⟨?_, ?_⟩
      · intro v hv
        rw [dict_lookup_cons_of_ne _ hk] at hv
        rw [hupd]
        exact (ih (dict_set state kv.1 kv.2) hrest k).1 v hv
      · intro hv
        rw [dict_lookup_cons_of_ne _ hk] at hv
        rw [hupd, (ih (dict_set state kv.1 kv.2) hrest k).2 hv]
        exact dict_lookup_set_other state kv.2 (fun hc => hk hc.symm)

/-! ### Claims -/

/-- Claim C1: Topological soundness — for every plan and every executor and
gate behaviour, the `completed_tasks` list built by `execute_plan` is a
valid topological order: each appended id is the id of a plan task whose
dependency ids all appear strictly earlier in the list, so the property
holds at every point of the run (every position of the final list). -/
theorem claim_topological_soundness (tasks : List Task)
    (executor : Task → Bool × String) (gate : Nat → String) (session : Dict) :
    topo_sound tasks (result_completed
      (execute_plan (some tasks) executor gate [] session)) := by
  unfold execute_plan
  by_cases he : tasks.isEmpty
  · simp only [he, if_true]
    exact topo_sound_nil tasks
  · simp only [he, if_false]
    exact execute_plan_loop_topo tasks executor gate tasks.length 1 [] session
      (topo_sound_nil tasks)

/-- Claim C2: Readiness resolver correctness — `find_executable_tasks`
returns exactly the tasks whose id is not in `completed_tasks` and whose
dependency ids are all in `completed_tasks` (vacuously so for an empty
dependency list), and it returns them as a sublist of the input, i.e. in
the original declaration order. -/
theorem claim_readiness_resolver (tasks : List Task)
    (completed_tasks : List String) :
    (∀ task, task ∈ find_executable_tasks completed_tasks tasks ↔
        task ∈ tasks ∧ task.task_id ∉ completed_tasks ∧
          ∀ dep ∈ task.dependencies, dep ∈ completed_tasks)
    ∧ List.Sublist (find_executable_tasks completed_tasks tasks) tasks := by
  constructor
  · intro task
    constructor
    · intro h
      have hm := List.mem_filter.mp h
      exact ⟨hm.1, of_decide_eq_true hm.2⟩
    · intro h
      exact List.mem_filter.mpr ⟨h.1, decide_eq_true ⟨h.2.1, h.2.2⟩⟩
  · exact List.filter_sublist tasks

/-- Claim C3: Deadlock detection and diagnostic payload — whenever a round
finds no executable task while uncompleted tasks remain, the loop returns
the deadlock result (boolean `false`, no exception), whose report pairs
every uncompleted task with its dependency ids not yet completed. -/
theorem claim_deadlock_detection (tasks : List Task)
    (executor : Task → Bool × String) (gate : Nat → String)
    (fuel execution_round : Nat) (completed : List String) (session : Dict)
    (hlen : completed.length < tasks.length)
    (hfe : find_executable_tasks completed tasks = [])
    (hrem : (remaining_tasks completed tasks).isEmpty = false) :
    execute_plan_loop tasks executor gate (fuel + 1) execution_round completed
        session =
      RunResult.deadlock completed (deadlock_report completed tasks) session
    ∧ result_bool (execute_plan_loop tasks executor gate (fuel + 1)
        execution_round completed session) = some false
    ∧ ∀ task ∈ tasks, task.task_id ∉ completed →
        (task.task_id, missing_deps completed task) ∈
          deadlock_report completed tasks := by
  refine ⟨loop_deadlock executor gate fuel execution_round session hlen hfe hrem,
    ?_, ?_⟩
  · rw [loop_deadlock executor gate fuel execution_round session hlen hfe hrem]
    rfl
  · intro task hmem hnc
    unfold deadlock_report remaining_tasks
    exact List.mem_map.mpr
      ⟨task, List.mem_filter.mpr ⟨hmem, decide_eq_true hnc⟩, rfl⟩

/-- Witness for C3: the mutual-dependency plan `A→[B]`, `B→[A]` deadlocks
in the first round with both tasks reported and nothing completed. -/
theorem claim_deadlock_detection_witness :
    (([] : List String).length < plan_AB.length
      ∧ find_executable_tasks [] plan_AB = []
      ∧ (remaining_tasks [] plan_AB).isEmpty = false)
    ∧ execute_plan_loop plan_AB exec_ok gate_continue (1 + 1) 1 [] [] =
        RunResult.deadlock [] (deadlock_report [] plan_AB) []
    ∧ execute_plan (some plan_AB) exec_ok gate_continue [] [] =
        RunResult.deadlock [] [("A", ["B"]), ("B", ["A"])] []
    ∧ result_bool (execute_plan (some plan_AB) exec_ok gate_continue [] []) =
        some false :=
  ⟨⟨by decide, by decide, by decide⟩,
   (claim_deadlock_detection plan_AB exec_ok gate_continue 1 1 [] []
      (by decide) (by decide) (by decide)).1,
   by decide, by decide⟩

/-- Claim C4: Failure short-circuit — if the executor reports failure for
the task selected in a round, the loop returns the task-failure result at
once (boolean `false`): the failing id is not appended, `completed_tasks`
keeps exactly the ids completed in earlier rounds, and no further task is
attempted. -/
theorem claim_failure_short_circuit (tasks : List Task)
    (executor : Task → Bool × String) (gate : Nat → String)
    (fuel execution_round : Nat) (completed : List String) (session : Dict)
    (current_task : Task) (rest : List Task)
    (hlen : completed.length < tasks.length)
    (hfe : find_executable_tasks completed tasks = current_task :: rest)
    (hex : (executor current_task).1 = false) :
    execute_plan_loop tasks executor gate (fuel + 1) execution_round completed
        session =
      RunResult.taskFailed completed current_task.task_id
        (session_executing session current_task)
    ∧ result_bool (execute_plan_loop tasks executor gate (fuel + 1)
        execution_round completed session) = some false
    ∧ result_completed (execute_plan_loop tasks executor gate (fuel + 1)
        execution_round completed session) = completed := by
  refine ⟨loop_taskFailed fuel session hlen hfe hex, ?_, ?_⟩
  · rw [loop_taskFailed fuel session hlen hfe hex]
    rfl
  · rw [loop_taskFailed fuel session hlen hfe hex]
    rfl

/-- Witness for C4: on the linear plan `[setup, build(deps=[setup]),
test(deps=[build])]` with the executor failing on `build`, the run returns
`false` with `completed_tasks = [setup]`. -/
theorem claim_failure_short_circuit_witness :
    ((["setup"] : List String).length < linear_plan.length
      ∧ find_executable_tasks ["setup"] linear_plan =
          (⟨"build", ["setup"]⟩ : Task) :: []
      ∧ (exec_fail_build ⟨"build", ["setup"]⟩).1 = false)
    ∧ execute_plan_loop linear_plan exec_fail_build gate_continue (1 + 1) 2
        ["setup"]
        [("current_task", SVal.none), ("status", SVal.str "executing"),
         ("completed_tasks", SVal.strList ["setup"])] =
      RunResult.taskFailed ["setup"] (Task.task_id ⟨"build", ["setup"]⟩)
        (session_executing
          [("current_task", SVal.none), ("status", SVal.str "executing"),
           ("completed_tasks", SVal.strList ["setup"])]
          ⟨"build", ["setup"]⟩)
    ∧ execute_plan (some linear_plan) exec_fail_build gate_continue [] [] =
        RunResult.taskFailed ["setup"] "build"
          [("current_task", SVal.task ⟨"build", ["setup"]⟩),
           ("status", SVal.str "executing"),
           ("completed_tasks", SVal.strList ["setup"])]
    ∧ result_bool (execute_plan (some linear_plan) exec_fail_build
        gate_continue [] []) = some false
    ∧ result_completed (execute_plan (some linear_plan) exec_fail_build
        gate_continue [] []) = ["setup"] :=
  ⟨⟨by decide, by decide, by decide⟩,
   (claim_failure_short_circuit linear_plan exec_fail_build gate_continue 1 2
      ["setup"]
      [("current_task", SVal.none), ("status", SVal.str "executing"),
       ("completed_tasks", SVal.strList ["setup"])]
      ⟨"build", ["setup"]⟩ [] (by decide) (by decide) (by decide)).1,
   by decide, by decide, by decide⟩

/-- Counterexample to C5 as stated: on the happy-path plan with the gate
cancelling right after `setup` completes, the run does return `false` with
`completed_tasks = [setup]`, but no `Cancelled` status is ever recorded —
the session's `status` key still holds `"executing"` (the last value
written before `setup` ran). -/
theorem claim_cancellation_counterexample :
    execute_plan (some linear_plan) exec_ok gate_cancel_after_1 [] [] =
      RunResult.cancelled ["setup"]
        [("current_task", SVal.none), ("status", SVal.str "executing"),
         ("completed_tasks", SVal.strList ["setup"])]
    ∧ result_bool (execute_plan (some linear_plan) exec_ok
        gate_cancel_after_1 [] []) = some false
    ∧ result_completed (execute_plan (some linear_plan) exec_ok
        gate_cancel_after_1 [] []) = ["setup"]
    ∧ dict_lookup (result_session (execute_plan (some linear_plan) exec_ok
        gate_cancel_after_1 [] [])) "status" = some (SVal.str "executing")
    ∧ dict_lookup (result_session (execute_plan (some linear_plan) exec_ok
        gate_cancel_after_1 [] [])) "status" ≠ some (SVal.str "cancelled")
    ∧ dict_lookup (result_session (execute_plan (some linear_plan) exec_ok
        gate_cancel_after_1 [] [])) "status" ≠ some (SVal.str "Cancelled") := by
  refine ⟨by decide, by decide, by decide, by decide, by decide, by decide⟩

/-- Claim C5 (amended): `cancel` is the only pause-gate outcome the loop
inspects — gates agreeing on when they answer `"cancel"` drive identical
runs (so `continue` and `timeout` resume identically), and when the gate
answers `"cancel"` right after a successful task the loop stops at once
with the cancelled result (boolean `false`, no further task attempted);
the session keeps its last written `status`, `"executing"` — no distinct
cancelled status is recorded. -/
theorem claim_cancellation_contract (tasks : List Task)
    (executor : Task → Bool × String) (g1 g2 gate : Nat → String)
    (fuel execution_round : Nat) (completed : List String) (session : Dict)
    (current_task : Task) (rest : List Task)
    (hg : ∀ n, g1 n = "cancel" ↔ g2 n = "cancel")
    (hlen : completed.length < tasks.length)
    (hfe : find_executable_tasks completed tasks = current_task :: rest)
    (hex : (executor current_task).1 = true)
    (hcancel : gate execution_round = "cancel") :
    execute_plan_loop tasks executor g1 fuel execution_round completed session =
      execute_plan_loop tasks executor g2 fuel execution_round completed session
    ∧ execute_plan_loop tasks executor gate (fuel + 1) execution_round
        completed session =
      RunResult.cancelled (List.append completed [current_task.task_id])
        (session_after_success session current_task
          (List.append completed [current_task.task_id]))
    ∧ result_bool (execute_plan_loop tasks executor gate (fuel + 1)
        execution_round completed session) = some false :=
  ⟨execute_plan_loop_gate_congr tasks executor g1 g2 hg fuel execution_round
      completed session,
   loop_cancelled fuel session hlen hfe hex hcancel,
   by rw [loop_cancelled fuel session hlen hfe hex hcancel]; rfl⟩

/-- Witness for the amended C5: on the happy-path plan, always-continue and
always-timeout gates give the same run, and cancelling after `setup` stops
the run with `completed_tasks = [setup]`, `build` and `test` never
attempted. -/
theorem claim_cancellation_contract_witness :
    (∀ n, gate_continue n = "cancel" ↔ gate_timeout n = "cancel")
    ∧ execute_plan_loop linear_plan exec_ok gate_continue 2 1 [] [] =
        execute_plan_loop linear_plan exec_ok gate_timeout 2 1 [] []
    ∧ execute_plan_loop linear_plan exec_ok gate_cancel_after_1 (2 + 1) 1 [] [] =
        RunResult.cancelled
          (List.append [] [Task.task_id ⟨"setup", []⟩])
          (session_after_success [] ⟨"setup", []⟩
            (List.append [] [Task.task_id ⟨"setup", []⟩]))
    ∧ execute_plan (some linear_plan) exec_ok gate_cancel_after_1 [] [] =
        RunResult.cancelled ["setup"]
          [("current_task", SVal.none), ("status", SVal.str "executing"),
           ("completed_tasks", SVal.strList ["setup"])]
    ∧ execute_plan (some linear_plan) exec_ok gate_continue [] [] =
        execute_plan (some linear_plan) exec_ok gate_timeout [] [] := by
  have hg : ∀ n, gate_continue n = "cancel" ↔ gate_timeout n = "cancel" := by
    intro n
    unfold gate_continue gate_timeout
    decide
  have happ := claim_cancellation_contract linear_plan exec_ok gate_continue
    gate_timeout gate_cancel_after_1 2 1 [] [] ⟨"setup", []⟩ [] hg
    (by decide) (by decide) (by decide) (by decide)
  exact ⟨hg, happ.1, happ.2.1, by decide, by decide⟩

/-- Claim C6: Empty-plan rejection — with a missing plan or an empty task
list, `execute_plan` returns `false` at its guard clauses, before any
round: `completed_tasks` and the session are untouched and the executor
and gate are never consulted. -/
theorem claim_empty_plan_rejection (executor executor2 : Task → Bool × String)
    (gate gate2 : Nat → String) (completed0 : List String) (session : Dict) :
    execute_plan Option.none executor gate completed0 session =
      RunResult.noPlan completed0 session
    ∧ execute_plan (some []) executor gate completed0 session =
        RunResult.emptyPlan completed0 session
    ∧ result_bool (execute_plan Option.none executor gate completed0 session) =
        some false
    ∧ result_bool (execute_plan (some []) executor gate completed0 session) =
        some false
    ∧ result_completed (execute_plan (some []) executor gate completed0
        session) = completed0
    ∧ result_session (execute_plan (some []) executor gate completed0
        session) = session
    ∧ execute_plan (some []) executor gate completed0 session =
        execute_plan (some []) executor2 gate2 completed0 session
    ∧ execute_plan Option.none executor gate completed0 session =
        execute_plan Option.none executor2 gate2 completed0 session :=
  ⟨rfl, rfl, rfl, rfl, rfl, rfl, rfl, rfl⟩

/-- Claim C7: Determinism — two runs of `execute_plan` on the same task
list with pointwise-identical executor outcomes and pause outcomes produce
the identical result, in particular the identical completion order (each
round picks `executable_tasks[0]`, the first ready task in declaration
order, so nothing else can vary). -/
theorem claim_determinism (tasks : List Task)
    (e1 e2 : Task → Bool × String) (g1 g2 : Nat → String)
    (completed0 : List String) (session : Dict)
    (he : ∀ task, e1 task = e2 task) (hg : ∀ n, g1 n = g2 n) :
    execute_plan (some tasks) e1 g1 completed0 session =
      execute_plan (some tasks) e2 g2 completed0 session
    ∧ result_completed (execute_plan (some tasks) e1 g1 completed0 session) =
        result_completed (execute_plan (some tasks) e2 g2 completed0 session) := by
  have he' : e1 = e2 := funext he
  have hg' : g1 = g2 := funext hg
  rw [he', hg']
  exact ⟨rfl, rfl⟩

/-- Witness for C7: two separately defined but pointwise-equal executors
and gates yield the identical run on the happy-path plan. -/
theorem claim_determinism_witness :
    execute_plan (some linear_plan) exec_ok gate_continue [] [] =
      execute_plan (some linear_plan) exec_ok_second gate_continue_second [] []
    ∧ result_completed (execute_plan (some linear_plan) exec_ok
        gate_continue [] []) =
      result_completed (execute_plan (some linear_plan) exec_ok_second
        gate_continue_second [] []) :=
  claim_determinism linear_plan exec_ok exec_ok_second gate_continue
    gate_continue_second [] [] (fun _ => rfl) (fun _ => rfl)

/-- Claim C8: Session-state merge is last-writer-wins per field with a
frame — after `update_session_state`, every key of the delta reads back
the delta's value, and every key not bound by the delta keeps its previous
value. -/
theorem claim_session_state_merge (state : Dict)
    (delta : List (String × SVal))
    (hnd : List.Nodup (List.map Prod.fst delta)) (k : String) :
    (∀ v, dict_lookup delta k = some v →
        dict_lookup (update_session_state state delta) k = some v)
    ∧ (dict_lookup delta k = Option.none →
        dict_lookup (update_session_state state delta) k =
          dict_lookup state k) :=
  dict_update_lookup delta state hnd k

/-- Witness for C8: a two-key delta overwrites `b`, appends `c`, and
leaves `a` untouched. -/
theorem claim_session_state_merge_witness :
    List.Nodup (List.map Prod.fst
      [("b", SVal.str "9"), ("c", SVal.str "3")])
    ∧ dict_lookup [("b", SVal.str "9"), ("c", SVal.str "3")] "b" =
        some (SVal.str "9")
    ∧ dict_lookup (update_session_state
        [("a", SVal.str "1"), ("b", SVal.str "2")]
        [("b", SVal.str "9"), ("c", SVal.str "3")]) "b" = some (SVal.str "9")
    ∧ dict_lookup [("b", SVal.str "9"), ("c", SVal.str "3")] "a" = Option.none
    ∧ dict_lookup (update_session_state
        [("a", SVal.str "1"), ("b", SVal.str "2")]
        [("b", SVal.str "9"), ("c", SVal.str "3")]) "a" =
      dict_lookup [("a", SVal.str "1"), ("b", SVal.str "2")] "a" := by
  refine ⟨by decide, by decide, ?_, by decide, ?_⟩
  · exact (claim_session_state_merge
      [("a", SVal.str "1"), ("b", SVal.str "2")]
      [("b", SVal.str "9"), ("c", SVal.str "3")] (by decide) "b").1
      (SVal.str "9") (by decide)
  · exact (claim_session_state_merge
      [("a", SVal.str "1"), ("b", SVal.str "2")]
      [("b", SVal.str "9"), ("c", SVal.str "3")] (by decide) "a").2
      (by decide)

/-- Claim C9 (implicit): `execute_single_task` reports success iff no
exception — the success flag is `true` exactly when the event stream is
consumed to completion with no exception raised, whatever the events
contain, and on any raised exception the result is `(false, "Error: " +
message)`; the flag never reflects a failure signalled only in the
output text. -/
theorem claim_single_task_success_iff (events : List Event)
    (exn : Option String) :
    ((execute_single_task events exn).1 = true ↔
      (exn = Option.none ∧ ∃ out, run_events events "" = Except.ok out))
    ∧ (∀ out, run_events events "" = Except.ok out →
        execute_single_task events Option.none = (true, out.trim))
    ∧ (∀ m, run_events events "" = Except.error m →
        execute_single_task events exn = (false, String.append "Error: " m))
    ∧ (∀ m out, exn = some m → run_events events "" = Except.ok out →
        execute_single_task events exn =
          (false, String.append "Error: " m)) := by
  refine ⟨?_, ?_, ?_, ?_⟩
  · cases hrun : run_events events "" with
    | ok out0 =>
      cases exn with
      | none => simp [execute_single_task, hrun]
      | some m => simp [execute_single_task, hrun]
    | error m0 => simp [execute_single_task, hrun]
  · intro out hout
    simp [execute_single_task, hout]
  · intro m hm
    simp [execute_single_task, hm]
  · intro m out hm hout
    subst hm
    simp [execute_single_task, hout]

/-- Witness for C9: an event stream whose response content announces
failure still yields success `true` when no exception is raised, and a
raised exception yields `(false, "Error: ...")`. -/
theorem claim_single_task_success_iff_witness :
    run_events [⟨some "response", some "TASK FAILED"⟩] "" =
      Except.ok "TASK FAILED\n"
    ∧ execute_single_task [⟨some "response", some "TASK FAILED"⟩]
        Option.none = (true, ("TASK FAILED\n").trim)
    ∧ (execute_single_task [⟨some "response", some "TASK FAILED"⟩]
        Option.none).1 = true
    ∧ execute_single_task [⟨some "response", some "TASK FAILED"⟩]
        (some "runner crashed") =
      (false, String.append "Error: " "runner crashed") := by
  refine ⟨rfl, ?_, rfl, ?_⟩
  · exact (claim_single_task_success_iff
      [⟨some "response", some "TASK FAILED"⟩] Option.none).2.1
      "TASK FAILED\n" rfl
  · exact (claim_single_task_success_iff
      [⟨some "response", some "TASK FAILED"⟩] (some "runner crashed")).2.2.2
      "runner crashed" "TASK FAILED\n" rfl rfl

/-- Counterexample to C10 as stated: the plan `[A, A, C(deps=[missing])]`
contains two tasks with the id `A`, and after the first `A` completes the
run does not raise `IndexError` — the remaining-tasks filter still holds
`C`, so `execute_plan` returns the boolean `false` through the deadlock
path. -/
theorem claim_duplicate_ids_counterexample :
    List.map Task.task_id dup_plan_missing = ["A", "A", "C"]
    ∧ execute_plan (some dup_plan_missing) exec_ok gate_continue [] [] =
        RunResult.deadlock ["A"] [("C", ["missing"])]
          [("current_task", SVal.none), ("status", SVal.str "executing"),
           ("completed_tasks", SVal.strList ["A"])]
    ∧ result_bool (execute_plan (some dup_plan_missing) exec_ok
        gate_continue [] []) = some false :=
  ⟨by decide, by decide, by decide⟩

/-- Claim C10 (amended): the duplicate-id crash — whenever a round starts
with every task id of the plan already in `completed_tasks` while
`completed_tasks` is still shorter than the task list (the state a
duplicated id produces once its first copy completes and only duplicates
remain), `find_executable_tasks` returns `[]`, the remaining-tasks filter
is also empty, and the loop evaluates `executable_tasks[0]` on an empty
list: it raises `IndexError` instead of returning a boolean. -/
theorem claim_duplicate_ids_crash (tasks : List Task)
    (executor : Task → Bool × String) (gate : Nat → String)
    (fuel execution_round : Nat) (completed : List String) (session : Dict)
    (hlen : completed.length < tasks.length)
    (hall : ∀ task ∈ tasks, task.task_id ∈ completed) :
    find_executable_tasks completed tasks = []
    ∧ (remaining_tasks completed tasks).isEmpty = true
    ∧ execute_plan_loop tasks executor gate (fuel + 1) execution_round
        completed session = RunResult.indexError completed session
    ∧ result_bool (execute_plan_loop tasks executor gate (fuel + 1)
        execution_round completed session) = Option.none := by
  have hfe : find_executable_tasks completed tasks = [] := by
    unfold find_executable_tasks
    rw [List.filter_eq_nil_iff]
    intro task hmem hcon
    exact (of_decide_eq_true hcon).1 (hall task hmem)
  have hrem : (remaining_tasks completed tasks).isEmpty = true := by
    unfold remaining_tasks
    rw [List.filter_eq_nil_iff.mpr]
    · rfl
    · intro task hmem hcon
      exact (of_decide_eq_true hcon) (hall task hmem)
  refine ⟨hfe, hrem, ?_, ?_⟩
  · exact loop_indexError executor gate fuel execution_round session hlen
      hfe hrem
  · rw [loop_indexError executor gate fuel execution_round session hlen
      hfe hrem]
    rfl

/-- Witness for the amended C10: the two-task duplicate plan `[dup, dup]`
crashes in its second round: after the first copy completes, both the
executable and remaining lists are empty and the run ends in
`IndexError` with no boolean returned. -/
theorem claim_duplicate_ids_crash_witness :
    ((["dup"] : List String).length < dup_plan.length
      ∧ (∀ task ∈ dup_plan, task.task_id ∈ (["dup"] : List String)))
    ∧ execute_plan_loop dup_plan exec_ok gate_continue (0 + 1) 2 ["dup"]
        [("current_task", SVal.none), ("status", SVal.str "executing"),
         ("completed_tasks", SVal.strList ["dup"])] =
      RunResult.indexError ["dup"]
        [("current_task", SVal.none), ("status", SVal.str "executing"),
         ("completed_tasks", SVal.strList ["dup"])]
    ∧ execute_plan (some dup_plan) exec_ok gate_continue [] [] =
        RunResult.indexError ["dup"]
          [("current_task", SVal.none), ("status", SVal.str "executing"),
           ("completed_tasks", SVal.strList ["dup"])]
    ∧ result_bool (execute_plan (some dup_plan) exec_ok gate_continue [] []) =
        Option.none :=
  ⟨⟨by decide, by decide⟩,
   (claim_duplicate_ids_crash dup_plan exec_ok gate_continue 0 2 ["dup"]
      [("current_task", SVal.none), ("status", SVal.str "executing"),
       ("completed_tasks", SVal.strList ["dup"])]
      (by decide) (by decide)).2.2.1,
   by decide, by decide⟩

end Jarvis
